import Mathlib

/-!
Verification of the FTPToGCSOperator transfer pipeline
(src/FTPToGCSOperator.py).

Python strings are modelled as lists of characters.  The pure helpers
(_set_destination_path, _set_bucket_name, the source-path split in
__init__) are translated directly.  The stateful execute method is
modelled as a function from a simulated transport (World) to the list
of externally visible events it performs together with its outcome;
each try/except handler of the source is reflected as the
corresponding branch of the model.
-/

namespace FTPToGCS

/-- Python strings are modelled as lists of characters. -/
abbrev Str := List Char

/-- Python s.lstrip of the slash character: drop every leading slash. -/
def lstripSlash (s : Str) : Str := s.dropWhile (fun c => c = '/')

/-- Python s.rstrip of the slash character: drop every trailing slash. -/
def rstripSlash (s : Str) : Str := (s.reverse.dropWhile (fun c => c = '/')).reverse

/-- Python s.strip of the slash character: drop leading and trailing slashes. -/
def stripSlash (s : Str) : Str := lstripSlash (rstripSlash s)

/-- The five-character scheme marker gs:// checked by _set_bucket_name. -/
def gsMarker : Str := ['g', 's', ':', '/', '/']

/-- _set_destination_path from FTPToGCSOperator.py, lines 62-67:
if the argument is present, rstrip slashes, then lstrip slashes when the
result starts with a slash; absent arguments give the empty string. -/
def set_destination_path : Option Str → Str
  | some path =>
    let p := rstripSlash path
    if p.head? = some '/' then lstripSlash p else p
  | none => []

/-- The conditional scheme drop in _set_bucket_name, line 71:
name if not name.startswith gs:// else name drop 5. -/
def stripGs (name : Str) : Str :=
  if gsMarker.isPrefixOf name then name.drop 5 else name

/-- _set_bucket_name from FTPToGCSOperator.py, lines 69-72:
drop a leading gs:// marker, then strip slashes from both ends. -/
def set_bucket_name (name : Str) : Str := stripSlash (stripGs name)

/-- Python source_path.split on the slash character (keeps empty segments,
and the split of the empty string is the singleton list of the empty
string). -/
def splitSlash : Str → List Str
  | [] => [[]]
  | c :: rest =>
    match splitSlash rest with
    | [] => [[]]
    | s :: ss => if c = '/' then [] :: s :: ss else (c :: s) :: ss

/-- Python join with the slash character. -/
def joinSlash (xs : List Str) : Str := List.intercalate ['/'] xs

/-- The fields of the operator that the pipeline reads. -/
structure OperatorState where
  destination_path : Str
  destination_bucket : Str
  ftp_folder : Str
  ftp_file : Str
  move_object : Bool
  deriving DecidableEq

/-- The constructor, FTPToGCSOperator.py lines 36-60: normalize the
destination path and bucket, split the source path on slashes, join all
segments but the last into ftp_folder and keep the last as ftp_file. -/
def init (source_path : Str) (destination_bucket : Str)
    (destination_path : Option Str) (move_object : Bool) : OperatorState :=
  let temp := splitSlash source_path
  { destination_path := set_destination_path destination_path
    destination_bucket := set_bucket_name destination_bucket
    ftp_folder := joinSlash temp.dropLast
    ftp_file := temp.getLastD []
    move_object := move_object }

/-- Externally visible events of one execute run. -/
inductive Ev where
  | quit
  | openStream (key : Str)
  | closeStream (key : Str)
  | retr (name : Str)
  | delete (name : Str)
  deriving DecidableEq

/-- Which call inside the per-match try block raised. -/
inductive LoopCause where
  | retrFail
  | deleteFail
  deriving DecidableEq

/-- The outcome of one execute run.  Every non-ok constructor models one
raise site of the source: the connect handler (line 86), the login
handler (line 94), the cwd handler (line 100), and the loop handler
(line 123).  nameError models the loop handler entered with the loop
variable filename unbound (nlst itself raised before the first
iteration): formatting the message then raises NameError instead of the
AirflowException. -/
inductive Outcome where
  | ok
  | connectError
  | loginError
  | cwdError
  | loopError (filename : Str) (cause : LoopCause)
  | nameError
  deriving DecidableEq

/-- A simulated FTP transport and listing: which stages succeed, what the
listing returns (none models nlst raising), and which per-file retrieve
and delete calls succeed. -/
structure World where
  connectOk : Bool
  loginOk : Bool
  cwdOk : Bool
  nlst : Option (List Str)
  retrOk : Str → Bool
  deleteOk : Str → Bool

/-- Destination key computation, lines 107-109: prepend the destination
path and a slash when the destination path is non-empty. -/
def file_dest (cfg : OperatorState) (filename : Str) : Str :=
  if 0 < cfg.destination_path.length then cfg.destination_path ++ '/' :: filename
  else filename

/-- The events of one fully successful loop iteration, lines 104-120:
open the write stream, retrieve, close the stream on leaving the with
block, then delete when move_object is set. -/
def matchEvs (cfg : OperatorState) (n : Str) : List Ev :=
  [Ev.openStream (file_dest cfg n), Ev.retr n, Ev.closeStream (file_dest cfg n)]
    ++ (if cfg.move_object then [Ev.delete n] else [])

/-- The events of a run of fully successful iterations. -/
def loopEvs (cfg : OperatorState) : List Str → List Ev
  | [] => []
  | n :: rest => matchEvs cfg n ++ loopEvs cfg rest

/-- The for loop over the listing, lines 105-120: each iteration opens
the write stream, retrieves (the with block closes the stream on both
exit paths), then deletes when move_object is set.  The first failing
call ends the loop with the failing filename and cause; no later name is
processed. -/
def runLoop (cfg : OperatorState) (w : World) : List Str → List Ev × Option (Str × LoopCause)
  | [] => ([], none)
  | n :: rest =>
    if w.retrOk n then
      if cfg.move_object then
        if w.deleteOk n then
          let r := runLoop cfg w rest
          (matchEvs cfg n ++ r.1, r.2)
        else (matchEvs cfg n, some (n, LoopCause.deleteFail))
      else
        let r := runLoop cfg w rest
        (matchEvs cfg n ++ r.1, r.2)
    else
      ([Ev.openStream (file_dest cfg n), Ev.retr n, Ev.closeStream (file_dest cfg n)],
        some (n, LoopCause.retrFail))

/-- The execute method, lines 74-125, against a simulated transport.
Connect failure raises with no cleanup (no session exists).  Login and
cwd failures quit then raise.  A raising nlst reaches the loop handler
with the loop variable unbound: the handler quits and then its message
formatting raises NameError.  A failure inside an iteration quits and
raises the loop error for the failing filename.  Success quits at line
125 and returns. -/
def execute (cfg : OperatorState) (w : World) : List Ev × Outcome :=
  if w.connectOk = false then ([], Outcome.connectError)
  else if w.loginOk = false then ([Ev.quit], Outcome.loginError)
  else if w.cwdOk = false then ([Ev.quit], Outcome.cwdError)
  else
    match w.nlst with
    | none => ([Ev.quit], Outcome.nameError)
    | some names =>
      match runLoop cfg w names with
      | (evs, none) => (evs ++ [Ev.quit], Outcome.ok)
      | (evs, some (f, c)) => (evs ++ [Ev.quit], Outcome.loopError f c)

/-- Recognizer for the quit event. -/
def isQuit : Ev → Bool
  | Ev.quit => true
  | _ => false

/-- How many times the run closed the FTP session. -/
def quits (evs : List Ev) : Nat := (evs.filter isQuit).length

/-- The key of an open-write-stream event. -/
def evKey : Ev → Option Str
  | Ev.openStream k => some k
  | _ => none

/-- The destination keys of the write streams a run opened, in order. -/
def openKeys (evs : List Ev) : List Str := evs.filterMap evKey

/-- Modelled from the claim's words, for comparison with the code:
destination-prefix normalization strips all trailing slashes and then a
single leading slash if one is present. -/
def claimedDestPath : Option Str → Str
  | none => []
  | some p =>
    match rstripSlash p with
    | '/' :: rest => rest
    | q => q

/-- Modelled from the claim's words, for comparison with the code:
bucket normalization fails (none) whenever the normalized name is empty. -/
def claimedBucketName (name : Str) : Option Str :=
  if stripSlash (stripGs name) = [] then none else some (stripSlash (stripGs name))

/-- The name a.csv of the spec's examples. -/
def nA : Str := ['a', '.', 'c', 's', 'v']

/-- The name b.csv of the spec's examples. -/
def nB : Str := ['b', '.', 'c', 's', 'v']

/-- The source path of the spec's split example with a directory part. -/
def pathABC : Str := ['a', '/', 'b', '/', 'c', '*', '.', 't', 'x', 't']

/-- The source path of the spec's split example without a directory part. -/
def pathC : Str := ['c', '*', '.', 't', 'x', 't']

/-- Copy-mode operator with destination prefix in, for the witnesses. -/
def cfgCopy : OperatorState := init ['d', '/', 'f', '*'] ['b', 'k', 't'] (some ['i', 'n']) false

/-- Move-mode operator with empty destination prefix, for the witnesses. -/
def cfgMove : OperatorState := init ['d', '/', 'f', '*'] ['b', 'k', 't'] none true

/-- A transport where every stage succeeds and the listing is as given. -/
def wAllOk (names : List Str) : World :=
  { connectOk := true, loginOk := true, cwdOk := true, nlst := some names,
    retrOk := fun _ => true, deleteOk := fun _ => true }

/-- A transport whose connect fails. -/
def wNoConnect : World :=
  { connectOk := false, loginOk := true, cwdOk := true, nlst := some [],
    retrOk := fun _ => true, deleteOk := fun _ => true }

/-- A transport whose login fails. -/
def wNoLogin : World :=
  { connectOk := true, loginOk := false, cwdOk := true, nlst := some [],
    retrOk := fun _ => true, deleteOk := fun _ => true }

/-- A transport that fails exactly the delete of a.csv. -/
def wDelFail : World :=
  { connectOk := true, loginOk := true, cwdOk := true, nlst := some [nA, nB],
    retrOk := fun _ => true, deleteOk := fun n => if n = nA then false else true }

/-- A transport whose listing call itself raises. -/
def wNoList : World :=
  { connectOk := true, loginOk := true, cwdOk := true, nlst := none,
    retrOk := fun _ => true, deleteOk := fun _ => true }

/-- The raw bucket argument gs://bkt of the invariants witness. -/
def dbEx : Str := gsMarker ++ ['b', 'k', 't']

/-- The raw destination path /in/ of the invariants witness. -/
def dpEx : Option Str := some ['/', 'i', 'n', '/']

/-- The source path of the invariants witness. -/
def sEx : Str := ['d', '/', 'f']

/-! Helper lemmas about the slash-stripping functions. -/

lemma head?_dropWhileSlash (l : Str) : (l.dropWhile (fun c => c = '/')).head? ≠ some '/' := by
  induction l with
  | nil => simp
  | cons c t ih =>
    by_cases h : c = '/'
    · simpa [List.dropWhile_cons, h] using ih
    · simp [List.dropWhile_cons, h]

lemma head?_stripSlash (l : Str) : (stripSlash l).head? ≠ some '/' :=
  head?_dropWhileSlash (rstripSlash l)

lemma getLast?_rstripSlash (l : Str) : (rstripSlash l).getLast? ≠ some '/' := by
  unfold rstripSlash
  rw [List.getLast?_reverse]
  exact head?_dropWhileSlash l.reverse

lemma getLast?_dropWhile_or (l : Str) :
    (l.dropWhile (fun c => c = '/')).getLast? = l.getLast?
      ∨ l.dropWhile (fun c => c = '/') = [] := by
  induction l with
  | nil => simp
  | cons c t ih =>
    by_cases h : c = '/'
    · rcases ih with ih | ih
      · by_cases ht : t = []
        · subst ht; right; simp [List.dropWhile_cons, h]
        · left
          have hd : List.dropWhile (fun c => decide (c = '/')) (c :: t)
              = List.dropWhile (fun c => decide (c = '/')) t := by
            simp [List.dropWhile_cons, h]
          rw [hd, ih]
          cases t with
          | nil => exact absurd rfl ht
          | cons d u => exact (List.getLast?_cons_cons).symm
      · right; simpa [List.dropWhile_cons, h] using ih
    · left; simp [List.dropWhile_cons, h]

lemma getLast?_stripSlash (l : Str) : (stripSlash l).getLast? ≠ some '/' := by
  unfold stripSlash lstripSlash
  rcases getLast?_dropWhile_or (rstripSlash l) with h | h
  · rw [h]; exact getLast?_rstripSlash l
  · rw [h]; simp

lemma dropWhile_eq_self_of_head (l : Str) (h : l.head? ≠ some '/') :
    l.dropWhile (fun c => c = '/') = l := by
  cases l with
  | nil => rfl
  | cons c t =>
    have hc : ¬ c = '/' := by simpa using h
    simp [List.dropWhile_cons, hc]

lemma set_dest_eq_strip (p : Str) : set_destination_path (some p) = stripSlash p := by
  unfold set_destination_path stripSlash
  by_cases h : (rstripSlash p).head? = some '/'
  · simp [h, lstripSlash]
  · simp only [h, if_false]
    exact (dropWhile_eq_self_of_head (rstripSlash p) h).symm

lemma exists_append_dropWhile (l : Str) :
    ∃ a, l = a ++ l.dropWhile (fun c => c = '/') := by
  induction l with
  | nil => exact ⟨[], rfl⟩
  | cons c t ih =>
    by_cases h : c = '/'
    · obtain ⟨a, ha⟩ := ih
      exact ⟨c :: a, by simp [List.dropWhile_cons, h, ← ha]⟩
    · exact ⟨[], by simp [List.dropWhile_cons, h]⟩

lemma exists_rstrip (l : Str) : ∃ b, l = rstripSlash l ++ b := by
  obtain ⟨a, ha⟩ := exists_append_dropWhile l.reverse
  refine ⟨a.reverse, ?_⟩
  unfold rstripSlash
  calc l = l.reverse.reverse := (List.reverse_reverse l).symm
    _ = (a ++ l.reverse.dropWhile (fun c => c = '/')).reverse := by rw [← ha]
    _ = (l.reverse.dropWhile (fun c => c = '/')).reverse ++ a.reverse := by
        rw [List.reverse_append]

lemma exists_strip (l : Str) : ∃ a b, l = a ++ (stripSlash l ++ b) := by
  obtain ⟨b, hb⟩ := exists_rstrip l
  obtain ⟨a, ha⟩ := exists_append_dropWhile (rstripSlash l)
  refine ⟨a, b, ?_⟩
  conv_lhs => rw [hb, ha]
  simp [stripSlash, lstripSlash]

lemma strip_eq_self (l : Str) (h1 : l.head? ≠ some '/') (h2 : l.getLast? ≠ some '/') :
    stripSlash l = l := by
  have hr : rstripSlash l = l := by
    unfold rstripSlash
    rw [dropWhile_eq_self_of_head l.reverse (by rwa [List.head?_reverse]),
      List.reverse_reverse]
  unfold stripSlash lstripSlash
  rw [hr]
  exact dropWhile_eq_self_of_head l h1

lemma stripGs_of_not (nm : Str) (h : gsMarker.isPrefixOf nm = false) : stripGs nm = nm := by
  unfold stripGs
  simp [h]

lemma gs_isPrefixOf_append (r : Str) : gsMarker.isPrefixOf (gsMarker ++ r) = true := by
  rw [ List.isPrefixOf_iff_prefix]
  exact List.prefix_append gsMarker r

lemma gs_drop (r : Str) : (gsMarker ++ r).drop 5 = r := by
  rw [show (5 : Nat) = gsMarker.length from rfl]
  exact List.drop_left gsMarker r

lemma bucket_gs_append (r : Str) : set_bucket_name (gsMarker ++ r) = stripSlash r := by
  unfold set_bucket_name stripGs
  rw [gs_isPrefixOf_append, if_pos rfl, gs_drop]

/-! Helper lemmas about the source-path split. -/

lemma splitSlash_no_slash (s : Str) (h : '/' ∉ s) : splitSlash s = [s] := by
  induction s with
  | nil => rfl
  | cons c t ih =>
    have hc : ¬ c = '/' := by
      intro hh
      exact h (by rw [← hh]; exact List.mem_cons_self c t)
    have ht : '/' ∉ t := fun hm => h (List.mem_cons_of_mem c hm)
    simp [splitSlash, ih ht, hc]

/-! Helper lemmas about the event trace. -/

lemma quits_append (a b : List Ev) : quits (a ++ b) = quits a + quits b := by
  simp [quits, List.filter_append]

lemma quits_matchEvs (cfg : OperatorState) (n : Str) : quits (matchEvs cfg n) = 0 := by
  cases hm : cfg.move_object <;> simp [matchEvs, hm, quits, isQuit]

lemma quits_loopEvs (cfg : OperatorState) (ns : List Str) : quits (loopEvs cfg ns) = 0 := by
  induction ns with
  | nil => simp [loopEvs, quits]
  | cons n rest ih => simp [loopEvs, quits_append, quits_matchEvs, ih]

lemma quits_runLoop (cfg : OperatorState) (w : World) (ns : List Str) :
    quits (runLoop cfg w ns).1 = 0 := by
  induction ns with
  | nil => simp [runLoop, quits]
  | cons n rest ih =>
    cases hr : w.retrOk n
    · simp [runLoop, hr, quits, isQuit]
    · cases hm : cfg.move_object
      · simp [runLoop, hr, hm, quits_append, quits_matchEvs, ih]
      · cases hd : w.deleteOk n
        · simp [runLoop, hr, hm, hd, quits_matchEvs]
        · simp [runLoop, hr, hm, hd, quits_append, quits_matchEvs, ih]

lemma openKeys_append (a b : List Ev) : openKeys (a ++ b) = openKeys a ++ openKeys b := by
  simp [openKeys, List.filterMap_append]

lemma openKeys_matchEvs (cfg : OperatorState) (n : Str) :
    openKeys (matchEvs cfg n) = [file_dest cfg n] := by
  cases hm : cfg.move_object <;> simp [matchEvs, hm, openKeys, evKey]

lemma openKeys_loopEvs (cfg : OperatorState) (ns : List Str) :
    openKeys (loopEvs cfg ns) = ns.map (file_dest cfg) := by
  induction ns with
  | nil => simp [loopEvs, openKeys]
  | cons n rest ih => simp [loopEvs, openKeys_append, openKeys_matchEvs, ih]

/-! Helper lemmas about the loop. -/

lemma runLoop_ok (cfg : OperatorState) (w : World) (ns : List Str)
    (h : ∀ n ∈ ns, w.retrOk n = true ∧ (cfg.move_object = true → w.deleteOk n = true)) :
    runLoop cfg w ns = (loopEvs cfg ns, none) := by
  induction ns with
  | nil => simp [runLoop, loopEvs]
  | cons n rest ih =>
    have hn := h n (List.mem_cons_self n rest)
    have hrest := ih (fun m hm => h m (List.mem_cons_of_mem n hm))
    cases hm : cfg.move_object
    · simp [runLoop, hn.1, hm, hrest, loopEvs]
    · simp [runLoop, hn.1, hm, hn.2 hm, hrest, loopEvs]

lemma runLoop_append (cfg : OperatorState) (w : World) (pre rest : List Str)
    (h : ∀ n ∈ pre, w.retrOk n = true ∧ (cfg.move_object = true → w.deleteOk n = true)) :
    runLoop cfg w (pre ++ rest)
      = (loopEvs cfg pre ++ (runLoop cfg w rest).1, (runLoop cfg w rest).2) := by
  induction pre with
  | nil => simp [loopEvs]
  | cons n pr ih =>
    have hn := h n (List.mem_cons_self n pr)
    have hpr := ih (fun m hm => h m (List.mem_cons_of_mem n hm))
    cases hm : cfg.move_object
    · simp [runLoop, hn.1, hm, hpr, loopEvs]
    · simp [runLoop, hn.1, hm, hn.2 hm, hpr, loopEvs]

/-! The claims. -/

/-- C1: when connect, login, cwd succeed, the listing returns the given
names and every retrieve (and, in move mode, delete) succeeds, the run
ends ok and opens exactly one write stream per listed name, in listing
order, with key file_dest: destination_path plus a slash plus the name
when the destination path is non-empty, and the bare name otherwise. -/
theorem destination_keys_in_listing_order (cfg : OperatorState) (w : World)
    (names : List Str)
    (hc : w.connectOk = true) (hl : w.loginOk = true) (hd : w.cwdOk = true)
    (hn : w.nlst = some names)
    (hall : ∀ n ∈ names, w.retrOk n = true ∧ (cfg.move_object = true → w.deleteOk n = true)) :
    (execute cfg w).2 = Outcome.ok
      ∧ openKeys (execute cfg w).1 = names.map (file_dest cfg)
      ∧ (∀ n : Str, 0 < cfg.destination_path.length →
          file_dest cfg n = cfg.destination_path ++ '/' :: n)
      ∧ (∀ n : Str, cfg.destination_path = [] → file_dest cfg n = n) := by
  have hrun := runLoop_ok cfg w names hall
  refine ⟨?_, ?_, ?_, ?_⟩
  · simp [execute, hc, hl, hd, hn, hrun]
  · have h1 : (execute cfg w).1 = loopEvs cfg names ++ [Ev.quit] := by
      simp [execute, hc, hl, hd, hn, hrun]
    rw [h1, openKeys_append, openKeys_loopEvs]
    simp [openKeys, evKey]
  · intro n h; simp [file_dest, h]
  · intro n h; simp [file_dest, h]

/-- Witness for C1, the spec's two-match example: prefix in, matches
a.csv and b.csv, keys in/a.csv and in/b.csv in listing order. -/
theorem destination_keys_witness :
    (execute cfgCopy (wAllOk [nA, nB])).2 = Outcome.ok
      ∧ openKeys (execute cfgCopy (wAllOk [nA, nB])).1 = [nA, nB].map (file_dest cfgCopy)
      ∧ (∀ n : Str, 0 < cfgCopy.destination_path.length →
          file_dest cfgCopy n = cfgCopy.destination_path ++ '/' :: n)
      ∧ (∀ n : Str, cfgCopy.destination_path = [] → file_dest cfgCopy n = n) :=
  destination_keys_in_listing_order cfgCopy (wAllOk [nA, nB]) [nA, nB] rfl rfl rfl rfl
    (fun _ _ => ⟨rfl, fun _ => rfl⟩)

/-- C2: with the listing pre plus f plus post and every match of pre
fully succeeding, a retrieve failure at f (or, in move mode, a delete
failure at f) makes the run end with the loop error for f and the
corresponding cause; the whole event trace is exactly the successful
events of pre, the partial events of f, and a single quit, so the
session is closed exactly once, no match of post is ever attempted, and
the completed transfers and deletions of pre stay in the trace. -/
theorem failure_fail_fast_closes_once (cfg : OperatorState) (w : World)
    (pre : List Str) (f : Str) (post : List Str)
    (hc : w.connectOk = true) (hl : w.loginOk = true) (hd : w.cwdOk = true)
    (hn : w.nlst = some (pre ++ f :: post))
    (hpre : ∀ n ∈ pre, w.retrOk n = true ∧ (cfg.move_object = true → w.deleteOk n = true)) :
    (w.retrOk f = false →
      execute cfg w
          = (loopEvs cfg pre
              ++ [Ev.openStream (file_dest cfg f), Ev.retr f,
                  Ev.closeStream (file_dest cfg f), Ev.quit],
            Outcome.loopError f LoopCause.retrFail)
        ∧ quits (execute cfg w).1 = 1)
    ∧ (w.retrOk f = true → cfg.move_object = true → w.deleteOk f = false →
      execute cfg w
          = (loopEvs cfg pre
              ++ [Ev.openStream (file_dest cfg f), Ev.retr f,
                  Ev.closeStream (file_dest cfg f), Ev.delete f, Ev.quit],
            Outcome.loopError f LoopCause.deleteFail)
        ∧ quits (execute cfg w).1 = 1) := by
  have happ := runLoop_append cfg w pre (f :: post) hpre
  constructor
  · intro hf
    have hcons : runLoop cfg w (f :: post)
        = ([Ev.openStream (file_dest cfg f), Ev.retr f, Ev.closeStream (file_dest cfg f)],
            some (f, LoopCause.retrFail)) := by
      simp [runLoop, hf]
    have hrun : runLoop cfg w (pre ++ f :: post)
        = (loopEvs cfg pre
            ++ [Ev.openStream (file_dest cfg f), Ev.retr f, Ev.closeStream (file_dest cfg f)],
          some (f, LoopCause.retrFail)) := by
      rw [happ, hcons]
    have hex : execute cfg w
        = (loopEvs cfg pre
            ++ [Ev.openStream (file_dest cfg f), Ev.retr f,
                Ev.closeStream (file_dest cfg f), Ev.quit],
          Outcome.loopError f LoopCause.retrFail) := by
      simp [execute, hc, hl, hd, hn, hrun]
    refine ⟨hex, ?_⟩
    have h1 : (execute cfg w).1
        = loopEvs cfg pre
            ++ [Ev.openStream (file_dest cfg f), Ev.retr f,
                Ev.closeStream (file_dest cfg f), Ev.quit] := by
      rw [hex]
    rw [h1, quits_append, quits_loopEvs]
    simp [quits, isQuit]
  · intro hf hm hdel
    have hme : matchEvs cfg f
        = [Ev.openStream (file_dest cfg f), Ev.retr f,
            Ev.closeStream (file_dest cfg f), Ev.delete f] := by
      simp [matchEvs, hm]
    have hcons : runLoop cfg w (f :: post)
        = ([Ev.openStream (file_dest cfg f), Ev.retr f,
            Ev.closeStream (file_dest cfg f), Ev.delete f],
            some (f, LoopCause.deleteFail)) := by
      rw [← hme]
      simp [runLoop, hf, hm, hdel]
    have hrun : runLoop cfg w (pre ++ f :: post)
        = (loopEvs cfg pre
            ++ [Ev.openStream (file_dest cfg f), Ev.retr f,
                Ev.closeStream (file_dest cfg f), Ev.delete f],
          some (f, LoopCause.deleteFail)) := by
      rw [happ, hcons]
    have hex : execute cfg w
        = (loopEvs cfg pre
            ++ [Ev.openStream (file_dest cfg f), Ev.retr f,
                Ev.closeStream (file_dest cfg f), Ev.delete f, Ev.quit],
          Outcome.loopError f LoopCause.deleteFail) := by
      simp [execute, hc, hl, hd, hn, hrun]
    refine ⟨hex, ?_⟩
    have h1 : (execute cfg w).1
        = loopEvs cfg pre
            ++ [Ev.openStream (file_dest cfg f), Ev.retr f,
                Ev.closeStream (file_dest cfg f), Ev.delete f, Ev.quit] := by
      rw [hex]
    rw [h1, quits_append, quits_loopEvs]
    simp [quits, isQuit]

/-- Witness for C2, the spec's delete-failure example: move mode, two
matches, the delete of the first match fails; the run aborts with the
delete cause before the second match, with one quit. -/
theorem failure_fail_fast_witness :
    (execute cfgMove wDelFail
        = (loopEvs cfgMove []
            ++ [Ev.openStream (file_dest cfgMove nA), Ev.retr nA,
                Ev.closeStream (file_dest cfgMove nA), Ev.delete nA, Ev.quit],
          Outcome.loopError nA LoopCause.deleteFail)
      ∧ quits (execute cfgMove wDelFail).1 = 1) :=
  (failure_fail_fast_closes_once cfgMove wDelFail [] nA [nB] rfl rfl rfl rfl
      (fun n hmem => absurd hmem (List.not_mem_nil n))).2 rfl rfl (by decide)

/-- C3: when connect fails there is no event at all, in particular no
close; on every other failure outcome the trace contains exactly one
quit, so a connection, once opened, is always released. -/
theorem no_connection_leak (cfg : OperatorState) (w : World) :
    (w.connectOk = false → execute cfg w = ([], Outcome.connectError))
      ∧ (w.connectOk = true → (execute cfg w).2 ≠ Outcome.ok →
          quits (execute cfg w).1 = 1) := by
  constructor
  · intro h; simp [execute, h]
  · intro hc hne
    cases hl : w.loginOk
    · simp [execute, hc, hl, quits, isQuit]
    · cases hd : w.cwdOk
      · simp [execute, hc, hl, hd, quits, isQuit]
      · cases hn : w.nlst with
        | none => simp [execute, hc, hl, hd, hn, quits, isQuit]
        | some names =>
          cases hrr : runLoop cfg w names with
          | mk evs r2 =>
            cases r2 with
            | none =>
              exact absurd (by simp [execute, hc, hl, hd, hn, hrr]) hne
            | some fc =>
              rcases fc with ⟨f, c⟩
              have h1 : (execute cfg w).1 = evs ++ [Ev.quit] := by
                simp [execute, hc, hl, hd, hn, hrr]
              have h0 : quits evs = 0 := by
                have hq := quits_runLoop cfg w names
                rw [hrr] at hq
                exact hq
              rw [h1, quits_append, h0]
              simp [quits, isQuit]

/-- Witness for C3: a failed connect yields the bare connect error with
an empty trace, and a failed login yields a trace with one quit. -/
theorem no_connection_leak_witness :
    execute cfgCopy wNoConnect = ([], Outcome.connectError)
      ∧ quits (execute cfgCopy wNoLogin).1 = 1 :=
  ⟨(no_connection_leak cfgCopy wNoConnect).1 rfl,
    (no_connection_leak cfgCopy wNoLogin).2 rfl (by decide)⟩

/-- C9: with a successful setup and an empty listing, the run performs
exactly one quit and nothing else: no write stream is opened, no delete
happens, and the outcome is ok. -/
theorem empty_listing_noop (cfg : OperatorState) (w : World)
    (hc : w.connectOk = true) (hl : w.loginOk = true) (hd : w.cwdOk = true)
    (hn : w.nlst = some ([] : List Str)) :
    execute cfg w = ([Ev.quit], Outcome.ok)
      ∧ openKeys (execute cfg w).1 = []
      ∧ (∀ n : Str, Ev.delete n ∉ (execute cfg w).1)
      ∧ quits (execute cfg w).1 = 1 := by
  have hex : execute cfg w = ([Ev.quit], Outcome.ok) := by
    simp [execute, hc, hl, hd, hn, runLoop]
  refine ⟨hex, ?_, ?_, ?_⟩ <;> rw [hex] <;> simp [openKeys, evKey, quits, isQuit]

/-- Witness for C9: the zero-match run on a concrete all-ok transport. -/
theorem empty_listing_witness :
    execute cfgCopy (wAllOk []) = ([Ev.quit], Outcome.ok)
      ∧ openKeys (execute cfgCopy (wAllOk [])).1 = []
      ∧ (∀ n : Str, Ev.delete n ∉ (execute cfgCopy (wAllOk [])).1)
      ∧ quits (execute cfgCopy (wAllOk [])).1 = 1 :=
  empty_listing_noop cfgCopy (wAllOk []) rfl rfl rfl rfl

/-- C10: when the listing call itself raises, the handler quits the
session exactly once and the run ends with the NameError outcome (the
message formatting reads the unbound loop variable), not with any typed
per-stage loop error. -/
theorem nlst_failure_name_error (cfg : OperatorState) (w : World)
    (hc : w.connectOk = true) (hl : w.loginOk = true) (hd : w.cwdOk = true)
    (hn : w.nlst = none) :
    execute cfg w = ([Ev.quit], Outcome.nameError)
      ∧ quits (execute cfg w).1 = 1
      ∧ (∀ f : Str, ∀ c : LoopCause, (execute cfg w).2 ≠ Outcome.loopError f c) := by
  have hex : execute cfg w = ([Ev.quit], Outcome.nameError) := by
    simp [execute, hc, hl, hd, hn]
  refine ⟨hex, ?_, ?_⟩ <;> rw [hex] <;> simp [quits, isQuit]

/-- Witness for C10: the raising-listing run on a concrete transport. -/
theorem nlst_failure_witness :
    execute cfgCopy wNoList = ([Ev.quit], Outcome.nameError)
      ∧ quits (execute cfgCopy wNoList).1 = 1
      ∧ (∀ f : Str, ∀ c : LoopCause, (execute cfgCopy wNoList).2 ≠ Outcome.loopError f c) :=
  nlst_failure_name_error cfgCopy wNoList rfl rfl rfl rfl

/-- Counterexample to C4 as stated: on gs:// the normalized bucket name
is empty, yet the code returns the empty string instead of failing; the
claimed failing version disagrees with the code there and on ///. -/
theorem bucket_empty_no_failure_cex :
    claimedBucketName gsMarker = none
      ∧ set_bucket_name gsMarker = []
      ∧ set_bucket_name ['/', '/', '/'] = []
      ∧ claimedBucketName ['/', '/', '/'] = none := by decide

/-- C4 amended: bucket normalization drops exactly the five characters
of a leading gs:// marker, then strips leading and trailing slashes; an
empty result is returned as the empty string, with no failure raised. -/
theorem bucket_normalization_amended :
    (∀ r : Str, set_bucket_name (gsMarker ++ r) = stripSlash r)
      ∧ (∀ nm : Str, gsMarker.isPrefixOf nm = false → set_bucket_name nm = stripSlash nm)
      ∧ set_bucket_name gsMarker = []
      ∧ set_bucket_name ['/', '/', '/'] = [] := by
  refine ⟨bucket_gs_append, ?_, by decide, by decide⟩
  intro nm h
  unfold set_bucket_name
  rw [stripGs_of_not nm h]

/-- Witness for C4 amended, evaluating both branches on one-letter
inputs. -/
theorem bucket_normalization_witness :
    set_bucket_name (gsMarker ++ ['b']) = stripSlash ['b']
      ∧ set_bucket_name ['b'] = stripSlash ['b'] :=
  ⟨bucket_normalization_amended.1 ['b'], bucket_normalization_amended.2.1 ['b'] (by decide)⟩

/-- Counterexample to C5 as stated: on the input of two slashes then a,
the code strips both leading slashes, while stripping a single leading
slash as claimed would leave one. -/
theorem dest_path_single_leading_slash_cex :
    set_destination_path (some ['/', '/', 'a']) = ['a']
      ∧ claimedDestPath (some ['/', '/', 'a']) = ['/', 'a']
      ∧ (['a'] : Str) ≠ ['/', 'a'] := by decide

/-- C5 amended: destination-prefix normalization returns the empty
string for an absent input, and otherwise strips all trailing slashes
and then all (not one) leading slashes; a path of only slashes collapses
to the empty string, and the result never starts or ends with a
slash. -/
theorem dest_path_normalization_amended :
    set_destination_path none = []
      ∧ (∀ p : Str, set_destination_path (some p) = stripSlash p)
      ∧ (∀ p : Str, (∀ c ∈ p, c = '/') → set_destination_path (some p) = [])
      ∧ (∀ p : Str, (set_destination_path (some p)).getLast? ≠ some '/')
      ∧ (∀ p : Str, (set_destination_path (some p)).head? ≠ some '/') := by
  refine ⟨rfl, set_dest_eq_strip, ?_, ?_, ?_⟩
  · intro p hp
    rw [set_dest_eq_strip]
    have hr : rstripSlash p = [] := by
      unfold rstripSlash
      have hdw : p.reverse.dropWhile (fun c => c = '/') = [] := by
        rw [List.dropWhile_eq_nil_iff]
        intro x hx
        simp [hp x (List.mem_reverse.mp hx)]
      rw [hdw]
      rfl
    unfold stripSlash
    rw [hr]
    rfl
  · intro p
    rw [set_dest_eq_strip]
    exact getLast?_stripSlash p
  · intro p
    rw [set_dest_eq_strip]
    exact head?_stripSlash p

/-- Witness for C5 amended: a path of only slashes collapses to the
empty string. -/
theorem dest_path_normalization_witness :
    set_destination_path (some ['/', '/', '/']) = [] :=
  dest_path_normalization_amended.2.2.1 ['/', '/', '/'] (by decide)

/-- Counterexample to C6 as stated: the raw bucket gs://gs://x has its
first marker dropped only, so the stored bucket still starts with the
gs:// scheme marker. -/
theorem bucket_scheme_retained_cex :
    (init ['a'] (gsMarker ++ ['g', 's', ':', '/', '/', 'x']) none false).destination_bucket
        = ['g', 's', ':', '/', '/', 'x']
      ∧ gsMarker.isPrefixOf
          (init ['a'] (gsMarker ++ ['g', 's', ':', '/', '/', 'x']) none false).destination_bucket
        = true := by decide

/-- C6 amended: for every constructed configuration the stored
destination path never starts or ends with a slash and the stored bucket
never starts or ends with a slash; the stored bucket is additionally
free of a leading gs:// marker whenever the raw bucket value, after the
single conditional drop of a leading gs://, contains no further gs://
occurrence (a raw value like gs://gs://x retains the marker). -/
theorem config_invariants_amended (s db : Str) (dp : Option Str) (mv : Bool) :
    ((init s db dp mv).destination_path.head? ≠ some '/')
      ∧ ((init s db dp mv).destination_path.getLast? ≠ some '/')
      ∧ ((init s db dp mv).destination_bucket.head? ≠ some '/')
      ∧ ((init s db dp mv).destination_bucket.getLast? ≠ some '/')
      ∧ ((∀ a b : Str, stripGs db ≠ a ++ (gsMarker ++ b)) →
          ∀ b : Str, (init s db dp mv).destination_bucket ≠ gsMarker ++ b) := by
  refine ⟨?_, ?_, ?_, ?_, ?_⟩
  · show (set_destination_path dp).head? ≠ some '/'
    cases dp with
    | none => simp [set_destination_path]
    | some p => rw [set_dest_eq_strip]; exact head?_stripSlash p
  · show (set_destination_path dp).getLast? ≠ some '/'
    cases dp with
    | none => simp [set_destination_path]
    | some p => rw [set_dest_eq_strip]; exact getLast?_stripSlash p
  · show (set_bucket_name db).head? ≠ some '/'
    exact head?_stripSlash (stripGs db)
  · show (set_bucket_name db).getLast? ≠ some '/'
    exact getLast?_stripSlash (stripGs db)
  · intro h b heq
    have heq' : stripSlash (stripGs db) = gsMarker ++ b := heq
    obtain ⟨a, b', hab⟩ := exists_strip (stripGs db)
    apply h a (b ++ b')
    rw [hab, heq']
    simp [List.append_assoc]

/-- Witness for C6 amended on the raw inputs gs://bkt and /in/. -/
theorem config_invariants_witness :
    ((init sEx dbEx dpEx true).destination_path.head? ≠ some '/')
      ∧ ((init sEx dbEx dpEx true).destination_path.getLast? ≠ some '/')
      ∧ ((init sEx dbEx dpEx true).destination_bucket.head? ≠ some '/')
      ∧ ((init sEx dbEx dpEx true).destination_bucket.getLast? ≠ some '/')
      ∧ (init sEx dbEx dpEx true).destination_bucket ≠ gsMarker ++ ['z'] :=
  have h := config_invariants_amended sEx dbEx dpEx true
  ⟨h.1, h.2.1, h.2.2.1, h.2.2.2.1,
    h.2.2.2.2
      (by
        intro a b hab
        have hx : (':' : Char) ∈ stripGs dbEx := by
          rw [hab]
          simp [gsMarker]
        exact absurd hx (by decide))
      ['z']⟩

/-- Counterexample to C7 as stated: raw gs://x has no leading or
trailing slash, yet prepending gs:// and normalizing gives gs://x while
normalizing raw itself gives x. -/
theorem gs_idempotence_cex :
    (['g', 's', ':', '/', '/', 'x'] : Str).head? ≠ some '/'
      ∧ (['g', 's', ':', '/', '/', 'x'] : Str).getLast? ≠ some '/'
      ∧ set_bucket_name (gsMarker ++ ['g', 's', ':', '/', '/', 'x'])
        = ['g', 's', ':', '/', '/', 'x']
      ∧ set_bucket_name ['g', 's', ':', '/', '/', 'x'] = ['x']
      ∧ (['g', 's', ':', '/', '/', 'x'] : Str) ≠ ['x'] := by decide

/-- C7 amended: for every raw bucket name that does not itself start
with the gs:// marker (with or without leading or trailing slashes),
normalizing gs:// plus raw equals normalizing raw. -/
theorem gs_idempotence_amended (raw : Str) (h : gsMarker.isPrefixOf raw = false) :
    set_bucket_name (gsMarker ++ raw) = set_bucket_name raw := by
  rw [bucket_gs_append]
  unfold set_bucket_name
  rw [stripGs_of_not raw h]

/-- Witness for C7 amended at the one-letter bucket x. -/
theorem gs_idempotence_witness :
    set_bucket_name (gsMarker ++ ['x']) = set_bucket_name ['x'] :=
  gs_idempotence_amended ['x'] (by decide)

/-- C8: the constructor splits the source path on slashes, keeps the
last segment as the file pattern and rejoins the preceding segments with
slashes as the remote directory; a path without slash gives the empty
directory and itself as the pattern, and the spec's two examples
evaluate as stated. -/
theorem source_path_split_spec (db : Str) (dp : Option Str) (mv : Bool) (s : Str) :
    ('/' ∉ s → (init s db dp mv).ftp_folder = [] ∧ (init s db dp mv).ftp_file = s)
      ∧ (init pathABC db dp mv).ftp_folder = ['a', '/', 'b']
      ∧ (init pathABC db dp mv).ftp_file = pathC
      ∧ (init pathC db dp mv).ftp_folder = []
      ∧ (init pathC db dp mv).ftp_file = pathC := by
  refine ⟨?_, rfl, rfl, rfl, rfl⟩
  intro h
  constructor
  · show joinSlash (splitSlash s).dropLast = []
    rw [splitSlash_no_slash s h]
    rfl
  · show (splitSlash s).getLastD [] = s
    rw [splitSlash_no_slash s h]
    rfl

/-- Witness for C8 at the slash-free source path x. -/
theorem source_path_split_witness :
    (init ['x'] [] none false).ftp_folder = []
      ∧ (init ['x'] [] none false).ftp_file = ['x'] :=
  (source_path_split_spec [] none false ['x']).1 (by decide)

end FTPToGCS
